import Mathlib

/-!
# VideoResize: selection / overlay lifecycle controller

A shallow embedding of `src/src/VideoResize.js`.  The controller object is a record
`State`; every method is a function from states to states.  The parts of the browser
the methods read (the iframes below the editor root, their bounding rectangles, the
rectangle and scroll offsets of the parent container) are an explicit `World` argument,
because they change between events without the controller taking part.

Modelling decisions, each traceable to the source:

* Coordinates are integer pixels (`Int`); the width and height of a bounding rectangle
  are natural numbers, so that `rect.x = rect.left` and `rect.y = rect.top` as for every
  rectangle returned by `getBoundingClientRect`.
* DOM nodes are identified by a number (`===` on elements is equality of these numbers).
  `document.createElement` and `new ModuleClass(this)` draw their identity from the
  counters `nextNode` and `nextInst`.
* The hooks of a module (`onCreate`, `onUpdate`, `onDestroy`), its constructor,
  `quill.setSelection(null)` and `Quill.find(vid).deleteAt(0)` are calls into code that
  is not part of this file of the repository; each call is recorded, in order, in the
  trace `State.log`.
* A style object is an association list from property names to values; a property that
  was never set reads as the empty string.
-/

namespace VideoResize

/-! ## Geometry -/

/-- Rectangle returned by `getBoundingClientRect`. -/
structure DOMRect where
  x : Int
  y : Int
  width : Nat
  height : Nat
deriving DecidableEq, Repr

namespace DOMRect

/-- The `left` attribute of a rectangle of non-negative width. -/
def left (r : DOMRect) : Int := r.x

/-- The `top` attribute of a rectangle of non-negative height. -/
def top (r : DOMRect) : Int := r.y

/-- The `right` attribute of a rectangle of non-negative width. -/
def right (r : DOMRect) : Int := r.x + r.width

/-- The `bottom` attribute of a rectangle of non-negative height. -/
def bottom (r : DOMRect) : Int := r.y + r.height

/-- Rectangle reported for an element that has no layout box. -/
def zero : DOMRect := ⟨0, 0, 0, 0⟩

end DOMRect

/-! ## Style objects -/

/-- A style object: property name, value. -/
abbrev Style := List (String × String)

/-- Reading `style[k]`; an unset property is the empty string. -/
def Style.get : Style → String → String
  | [], _ => ""
  | (k', v) :: rest, k => if k' = k then v else Style.get rest k

/-- The assignment `style[k] = v`. -/
def Style.set : Style → String → String → Style
  | [], k, v => [(k, v)]
  | (k', v') :: rest, k, v => if k' = k then (k, v) :: rest else (k', v') :: Style.set rest k v

/-- The call `Object.assign(target, source)`: the own properties of `source`, in order,
are assigned on `target`. -/
def objectAssign (target source : Style) : Style :=
  source.foldl (fun acc kv => acc.set kv.1 kv.2) target

/-- The template literal with the `px` suffix, for an integer. -/
def px (n : Int) : String := toString n ++ "px"

/-! ## The document as a handler sees it -/

/-- The method `String.prototype.toUpperCase` on tag names. -/
def toUpperCase (s : String) : String := String.mk (s.data.map Char.toUpper)

/-- An element below the editor root. -/
structure Element where
  id : Nat
  tagName : String
  rect : DOMRect
deriving DecidableEq, Repr

/-- Snapshot of the host document at the time a method runs. -/
structure World where
  /-- Descendants of `quill.root`, in document order. -/
  descendants : List Element
  /-- Value of `quill.root.parentNode.getBoundingClientRect()`. -/
  containerRect : DOMRect
  /-- Value of `quill.root.parentNode.scrollLeft`. -/
  scrollLeft : Int
  /-- Value of `quill.root.parentNode.scrollTop`. -/
  scrollTop : Int
deriving Repr

/-- The test both `querySelectorAll('iframe')` and line 112 make on an element. -/
def isIframe (e : Element) : Bool := toUpperCase e.tagName == "IFRAME"

/-- The call `quill.root.querySelectorAll('iframe')`. -/
def querySelectorAll (w : World) : List Element := w.descendants.filter isIframe

/-- The call `vid.getBoundingClientRect()` for the element with identity `v`: the
rectangle of the element while it is below the editor root, the zero rectangle once it
has been removed from the document. -/
def boundingClientRect (w : World) (v : Nat) : DOMRect :=
  match w.descendants.find? (fun e => e.id == v) with
  | some e => e.rect
  | none => DOMRect.zero

/-- Target of a click event. -/
inductive Node where
  | root
  | other (id : Nat)
deriving DecidableEq, Repr

/-- The fields of a click event that `handleClick` reads. -/
structure MouseEvent where
  target : Node
  clientX : Int
  clientY : Int
deriving DecidableEq, Repr

/-- The field of a keyboard or input event that `checkVideo` reads; `none` is an event
without `keyCode`, such as an `input` event. -/
structure KeyEvent where
  keyCode : Option Nat
deriving DecidableEq, Repr

/-! ## Modules, listeners, trace -/

/-- A resolved entry of `options.modules`, the value of `knownModules[M] || M`: one of
the three known classes or a class supplied by the caller. -/
inductive ModuleClass where
  | DisplaySize
  | Toolbar
  | Resize
  | custom (c : Nat)
deriving DecidableEq, Repr

/-- A module object, the result of one `new`. -/
structure ModuleInst where
  id : Nat
  cls : ModuleClass
deriving DecidableEq, Repr

/-- Calls that leave the controller, in the order they are made. -/
inductive Event where
  | construct (inst : Nat) (cls : ModuleClass)
  | onCreate (inst : Nat)
  | onUpdate (inst : Nat)
  | onDestroy (inst : Nat)
  | deleteAt (vid : Nat) (index : Nat)
  | setSelectionNull
deriving DecidableEq, Repr

/-- The two objects listeners are registered on. -/
inductive EventTarget where
  | document
  | root
deriving DecidableEq, Repr

/-- The two callbacks the controller registers. -/
inductive Handler where
  | click
  | checkVideo
deriving DecidableEq, Repr

/-- One registration; the DOM keys registrations by type, callback and capture flag. -/
structure Listener where
  target : EventTarget
  type : String
  handler : Handler
  capture : Bool
deriving DecidableEq, Repr

/-- The call `addEventListener`: a registration already present is not added again. -/
def addEventListener (ls : List Listener) (l : Listener) : List Listener :=
  if l ∈ ls then ls else ls ++ [l]

/-- The call `removeEventListener`: removes the registration with the same target, type,
callback and capture flag, if there is one. -/
def removeEventListener (ls : List Listener) (l : Listener) : List Listener :=
  ls.filter (fun l' => l' ≠ l)

/-- The call `parent.appendChild(n)`. -/
def appendChild (children : List Nat) (n : Nat) : List Nat :=
  children.filter (fun c => c ≠ n) ++ [n]

/-- The call `parent.removeChild(n)`. -/
def removeChild (children : List Nat) (n : Nat) : List Nat :=
  children.filter (fun c => c ≠ n)

/-! ## Controller state -/

/-- The overlay `div`. -/
structure Overlay where
  node : Nat
  style : Style
deriving DecidableEq, Repr

/-- The controller object together with the parts of the host it writes. -/
structure State where
  /-- Field `this.moduleClasses`. -/
  moduleClasses : List ModuleClass
  /-- Field `this.options.overlayStyles`. -/
  overlayStyles : Style
  /-- Field `this.vid`; `none` is `undefined`. -/
  vid : Option Nat
  /-- Field `this.overlay`; `none` is `undefined`. -/
  overlay : Option Overlay
  /-- Field `this.modules`. -/
  modules : List ModuleInst
  /-- Object `quill.root.style`. -/
  rootStyle : Style
  /-- Object `document.documentElement.style`. -/
  docStyle : Style
  /-- Registered listeners on the document and on the editor root. -/
  listeners : List Listener
  /-- Children of `quill.root.parentNode`. -/
  parentChildren : List Nat
  /-- Value of `quill.root.parentNode.style.position`. -/
  parentPosition : String
  /-- Identity of the next element `document.createElement` returns. -/
  nextNode : Nat
  /-- Identity of the next module object `new` returns. -/
  nextInst : Nat
  /-- Trace of the calls made so far. -/
  log : List Event
deriving DecidableEq, Repr

/-- The argument `options` of the constructor. -/
structure Options where
  modules : Option (List ModuleClass)
  overlayStyles : Style
deriving DecidableEq, Repr

/-- The imported `DefaultOptions` object (its file is not part of the sources at hand),
taken as a parameter. -/
structure DefaultOptions where
  modules : List ModuleClass
  overlayStyles : Style
deriving DecidableEq, Repr

/-- The host at the time the controller is constructed. -/
structure Host where
  rootStyle : Style
  docStyle : Style
  listeners : List Listener
  parentChildren : List Nat
  parentPosition : String
  nextNode : Nat
deriving DecidableEq, Repr

/-- The call `defaultsDeep({}, options, DefaultOptions)` on the `overlayStyles` mapping:
the caller's properties, then the default properties the caller did not give. -/
def defaultsDeepStyles (given defaults : Style) : Style :=
  defaults.foldl
    (fun acc kv => if acc.any (fun p => p.1 == kv.1) then acc else acc ++ [kv]) given

/-- The constructor, lines 16 to 67. -/
def construct (host : Host) (options : Options) (defaults : DefaultOptions) : State :=
  { moduleClasses :=
      match options.modules with
      | some ms => ms
      | none => defaults.modules
    overlayStyles := defaultsDeepStyles options.overlayStyles defaults.overlayStyles
    vid := none
    overlay := none
    modules := []
    rootStyle := host.rootStyle
    docStyle := host.docStyle
    listeners := addEventListener host.listeners ⟨.root, "click", .click, false⟩
    parentChildren := host.parentChildren
    parentPosition := if host.parentPosition = "" then "relative" else host.parentPosition
    nextNode := host.nextNode
    nextInst := 0
    log := [] }

/-! ## Methods -/

/-- Method `removeModules`, lines 85 to 93. -/
def removeModules (s : State) : State :=
  { s with
    log := s.log ++ s.modules.map (fun m => Event.onDestroy m.id)
    modules := [] }

/-- Method `repositionElements`, lines 185 to 201. -/
def repositionElements (w : World) (s : State) : State :=
  match s.overlay, s.vid with
  | some o, some v =>
    let rect := boundingClientRect w v
    let containerRect := w.containerRect
    { s with
      overlay := some
        { o with
          style := objectAssign o.style
            [("left", px (rect.left - containerRect.left - 1 + w.scrollLeft)),
             ("top", px (rect.top - containerRect.top + w.scrollTop)),
             ("width", px rect.width),
             ("height", px rect.height)] } }
  | _, _ => s

/-- Closure `onUpdate`, lines 50 to 57. -/
def onUpdate (w : World) (s : State) : State :=
  let s1 := repositionElements w s
  { s1 with log := s1.log ++ s1.modules.map (fun m => Event.onUpdate m.id) }

/-- The objects built by `this.moduleClasses.map(M => new M(this))`, numbered from
`start`. -/
def instantiate : Nat → List ModuleClass → List ModuleInst
  | _, [] => []
  | start, c :: cs => ⟨start, c⟩ :: instantiate (start + 1) cs

/-- Method `initializeModules`, lines 69 to 83. -/
def initializeModules (w : World) (s : State) : State :=
  let s1 := removeModules s
  let insts : List ModuleInst := instantiate s1.nextInst s1.moduleClasses
  let s2 := { s1 with
    modules := insts
    nextInst := s1.nextInst + s1.moduleClasses.length
    log := s1.log ++ insts.map (fun (m : ModuleInst) => Event.construct m.id m.cls) }
  let s3 := { s2 with log := s2.log ++ s2.modules.map (fun (m : ModuleInst) => Event.onCreate m.id) }
  onUpdate w s3

/-- The four property names of `setUserSelect`. -/
def userSelectProps : List String :=
  ["userSelect", "mozUserSelect", "webkitUserSelect", "msUserSelect"]

/-- Method `setUserSelect`, lines 209 to 220. -/
def setUserSelect (value : String) (s : State) : State :=
  userSelectProps.foldl
    (fun acc prop =>
      { acc with
        rootStyle := acc.rootStyle.set prop value
        docStyle := acc.docStyle.set prop value }) s

/-- Method `hideOverlay`, lines 168 to 183. -/
def hideOverlay (s : State) : State :=
  match s.overlay with
  | none => s
  | some o =>
    let s1 := { s with
      parentChildren := removeChild s.parentChildren o.node
      overlay := none }
    let s2 := { s1 with
      listeners :=
        removeEventListener
          (removeEventListener s1.listeners ⟨.document, "keyup", .checkVideo, false⟩)
          ⟨.root, "input", .checkVideo, false⟩ }
    setUserSelect "" s2

/-- Method `showOverlay`, lines 145 to 166. -/
def showOverlay (w : World) (s : State) : State :=
  let s0 := if s.overlay.isSome then hideOverlay s else s
  let s1 := { s0 with log := s0.log ++ [Event.setSelectionNull] }
  let s2 := setUserSelect "none" s1
  let s3 := { s2 with
    listeners :=
      addEventListener
        (addEventListener s2.listeners ⟨.document, "keyup", .checkVideo, true⟩)
        ⟨.root, "input", .checkVideo, true⟩ }
  let s4 := { s3 with
    overlay := some ⟨s3.nextNode, objectAssign [] s3.overlayStyles⟩
    nextNode := s3.nextNode + 1 }
  let s5 := { s4 with parentChildren := appendChild s4.parentChildren s3.nextNode }
  repositionElements w s5

/-- Method `show`, lines 136 to 143 (`show` is a reserved word here). -/
def showTarget (w : World) (vid : Nat) (s : State) : State :=
  initializeModules w (showOverlay w { s with vid := some vid })

/-- Method `hide`, lines 203 to 207. -/
def hide (s : State) : State :=
  { removeModules (hideOverlay s) with vid := none }

/-- Closure `checkVideo`, lines 59 to 66. -/
def checkVideo (evt : KeyEvent) (s : State) : State :=
  match s.vid with
  | some v =>
    let s1 :=
      if evt.keyCode = some 46 ∨ evt.keyCode = some 8 then
        { s with log := s.log ++ [Event.deleteAt v 0] }
      else s
    hide s1
  | none => s

/-- The loop of `handleClick`, lines 98 to 128: `some` is the state at the `return`
inside the loop, `none` means the loop ran to its end. -/
def handleClickLoop (w : World) (evt : MouseEvent) (s : State) : List Element → Option State
  | [] => none
  | v :: rest =>
    if evt.clientX < v.rect.x then handleClickLoop w evt s rest
    else if evt.clientX > v.rect.right then handleClickLoop w evt s rest
    else if evt.clientY < v.rect.y then handleClickLoop w evt s rest
    else if evt.clientY > v.rect.bottom then handleClickLoop w evt s rest
    else if isIframe v then
      if s.vid = some v.id then some s
      else some (showTarget w v.id (if s.vid.isSome then hide s else s))
    else some (if s.vid.isSome then hide s else s)

/-- Method `handleClick`, lines 95 to 134. -/
def handleClick (w : World) (evt : MouseEvent) (s : State) : State :=
  let inLoop :=
    if evt.target = Node.root then handleClickLoop w evt s (querySelectorAll w) else none
  match inLoop with
  | some s' => s'
  | none => if s.vid.isSome then hide s else s

/-! ## Auxiliary definitions used in the statements -/

/-- The style written by `repositionElements`. -/
def boxStyle (w : World) (v : Nat) (st : Style) : Style :=
  objectAssign st
    [("left", px ((boundingClientRect w v).left - w.containerRect.left - 1 + w.scrollLeft)),
     ("top", px ((boundingClientRect w v).top - w.containerRect.top + w.scrollTop)),
     ("width", px (boundingClientRect w v).width),
     ("height", px (boundingClientRect w v).height)]

/-- Point `(x, y)` lies in the rectangle, the four edges included. -/
def DOMRect.containsPoint (r : DOMRect) (x y : Int) : Bool :=
  decide (r.left ≤ x ∧ x ≤ r.right ∧ r.top ≤ y ∧ y ≤ r.bottom)

/-- The first iframe below the editor root, in document order, whose bounding rectangle
contains the pointer position of the event. -/
def firstHit (w : World) (evt : MouseEvent) : Option Element :=
  (querySelectorAll w).find? (fun e => e.rect.containsPoint evt.clientX evt.clientY)

/-- Number of deletion requests (`deleteAt` calls) in a trace. -/
def deletionRequests : List Event → Nat
  | [] => 0
  | Event.deleteAt _ _ :: rest => deletionRequests rest + 1
  | _ :: rest => deletionRequests rest

/-- One call of a method of the controller from outside. -/
inductive Step : State → State → Prop where
  | handleClick (w : World) (evt : MouseEvent) (s : State) : Step s (handleClick w evt s)
  | checkVideo (evt : KeyEvent) (s : State) : Step s (checkVideo evt s)
  | showTarget (w : World) (t : Nat) (s : State) : Step s (showTarget w t s)
  | hide (s : State) : Step s (hide s)
  | onUpdate (w : World) (s : State) : Step s (onUpdate w s)

/-- States reachable from `init` by a finite sequence of calls. -/
inductive Reachable (init : State) : State → Prop where
  | init : Reachable init init
  | step {s s' : State} : Reachable init s → Step s s' → Reachable init s'

/-- The selection, the overlay and the modules list agree: a target is selected exactly
when the overlay exists, the modules list holds one object per configured class while a
target is selected and is empty otherwise, and every member has received `onCreate`. -/
def Coherent (s : State) : Prop :=
  (s.vid.isSome ↔ s.overlay.isSome) ∧
  s.modules.length = (if s.vid.isSome then s.moduleClasses.length else 0) ∧
  ∀ m ∈ s.modules, Event.onCreate m.id ∈ s.log

/-- The module object a traced call is made on, if any. -/
def Event.inst : Event → Option Nat
  | Event.construct i _ => some i
  | Event.onCreate i => some i
  | Event.onUpdate i => some i
  | Event.onDestroy i => some i
  | Event.deleteAt _ _ => none
  | Event.setSelectionNull => none

/-- In a trace, every `onDestroy` comes after the `onCreate` of the same object. -/
def DestroyAfterCreate (log : List Event) : Prop :=
  ∀ (pre post : List Event) (i : Nat),
    log = pre ++ Event.onDestroy i :: post → Event.onCreate i ∈ pre

/-- The lifecycle discipline of module objects, for an active list `modules`, an object
counter `nextInst` and a trace `log`: the active objects are distinct and were numbered
below the counter; so was every object the trace mentions; every object numbered so far
received `onCreate` once, and `onDestroy` once if it is no longer active and not at all
if it is; no `onDestroy` precedes the `onCreate` of its object. -/
def Lifecycle (modules : List ModuleInst) (nextInst : Nat) (log : List Event) : Prop :=
  (modules.map ModuleInst.id).Nodup ∧
  (∀ m ∈ modules, m.id < nextInst) ∧
  (∀ e ∈ log, ∀ i, e.inst = some i → i < nextInst) ∧
  (∀ i, i < nextInst → log.count (Event.onCreate i) = 1) ∧
  (∀ i, i < nextInst →
    log.count (Event.onDestroy i) = if i ∈ modules.map ModuleInst.id then 0 else 1) ∧
  DestroyAfterCreate log

/-! ## Concrete data for evaluation -/

/-- A document with one paragraph and two iframes; the first iframe has the rectangle
`left 120, top 40, width 300, height 240`, the container starts at `(10, 10)` and is not
scrolled. -/
def demoWorld : World :=
  { descendants :=
      [⟨1, "P", ⟨0, 0, 500, 20⟩⟩, ⟨7, "IFRAME", ⟨120, 40, 300, 240⟩⟩,
       ⟨9, "IFRAME", ⟨120, 300, 300, 240⟩⟩]
    containerRect := ⟨10, 10, 600, 800⟩
    scrollLeft := 0
    scrollTop := 0 }

/-- The same document after the iframe `7` has been removed from it. -/
def demoWorldDetached : World :=
  { descendants := [⟨1, "P", ⟨0, 0, 500, 20⟩⟩, ⟨9, "IFRAME", ⟨120, 300, 300, 240⟩⟩]
    containerRect := ⟨10, 10, 600, 800⟩
    scrollLeft := 0
    scrollTop := 0 }

/-- A host with no styles set, no listeners and an empty parent container. -/
def demoHost : Host :=
  { rootStyle := []
    docStyle := []
    listeners := []
    parentChildren := []
    parentPosition := ""
    nextNode := 0 }

/-- Default options with the three known modules. -/
def demoDefaults : DefaultOptions :=
  { modules := [ModuleClass.DisplaySize, ModuleClass.Toolbar, ModuleClass.Resize]
    overlayStyles := [("position", "absolute"), ("border", "1px dashed #444")] }

/-- A controller constructed with no options. -/
def demoFresh : State := construct demoHost ⟨none, []⟩ demoDefaults

/-- A controller constructed with an empty module list. -/
def demoFreshNoModules : State := construct demoHost ⟨some [], []⟩ demoDefaults

/-- The controller after the iframe `7` was selected. -/
def demoSelected : State := showTarget demoWorld 7 demoFresh

/-- The controller after a click that moves the selection from the iframe `7` to the
iframe `9`. -/
def demoSwitched : State := handleClick demoWorld ⟨Node.root, 200, 400⟩ demoSelected

/-! ## Style lemmas -/

theorem Style.get_set_self (st : Style) (k v : String) : (Style.set st k v).get k = v := by
  induction st with
  | nil => simp [Style.set, Style.get]
  | cons p rest ih =>
    obtain ⟨k', v'⟩ := p
    by_cases h : k' = k
    · simp [Style.set, Style.get, h]
    · simp [Style.set, Style.get, h, ih]

theorem Style.get_set_of_ne (st : Style) (k k' v : String) (h : k ≠ k') :
    (Style.set st k v).get k' = st.get k' := by
  induction st with
  | nil => simp [Style.set, Style.get, h]
  | cons p rest ih =>
    obtain ⟨k0, v0⟩ := p
    by_cases h0 : k0 = k
    · subst h0
      simp [Style.set, Style.get, h]
    · by_cases h1 : k0 = k'
      · subst h1
        simp [Style.set, Style.get, h0]
      · simp [Style.set, Style.get, h0, h1, ih]

theorem repositionElements_of_some (w : World) (s : State) (o : Overlay) (v : Nat)
    (ho : s.overlay = some o) (hv : s.vid = some v) :
    repositionElements w s =
      { s with overlay := some { o with style := boxStyle w v o.style } } := by
  simp only [repositionElements, ho, hv, boxStyle]

theorem boxStyle_left (w : World) (v : Nat) (st : Style) :
    (boxStyle w v st).get "left" =
      px ((boundingClientRect w v).left - w.containerRect.left - 1 + w.scrollLeft) := by
  simp only [boxStyle, objectAssign, List.foldl]
  rw [Style.get_set_of_ne _ _ _ _ (by decide), Style.get_set_of_ne _ _ _ _ (by decide),
    Style.get_set_of_ne _ _ _ _ (by decide), Style.get_set_self]

theorem boxStyle_top (w : World) (v : Nat) (st : Style) :
    (boxStyle w v st).get "top" =
      px ((boundingClientRect w v).top - w.containerRect.top + w.scrollTop) := by
  simp only [boxStyle, objectAssign, List.foldl]
  rw [Style.get_set_of_ne _ _ _ _ (by decide), Style.get_set_of_ne _ _ _ _ (by decide),
    Style.get_set_self]

theorem boxStyle_width (w : World) (v : Nat) (st : Style) :
    (boxStyle w v st).get "width" = px (boundingClientRect w v).width := by
  simp only [boxStyle, objectAssign, List.foldl]
  rw [Style.get_set_of_ne _ _ _ _ (by decide), Style.get_set_self]

theorem boxStyle_height (w : World) (v : Nat) (st : Style) :
    (boxStyle w v st).get "height" = px (boundingClientRect w v).height := by
  simp only [boxStyle, objectAssign, List.foldl]
  rw [Style.get_set_self]

theorem boxStyle_other (w : World) (v : Nat) (st : Style) (k : String)
    (hl : k ≠ "left") (ht : k ≠ "top") (hw : k ≠ "width") (hh : k ≠ "height") :
    (boxStyle w v st).get k = st.get k := by
  simp only [boxStyle, objectAssign, List.foldl]
  rw [Style.get_set_of_ne _ _ _ _ (Ne.symm hh), Style.get_set_of_ne _ _ _ _ (Ne.symm hw),
    Style.get_set_of_ne _ _ _ _ (Ne.symm ht), Style.get_set_of_ne _ _ _ _ (Ne.symm hl)]

/-- C1: when an overlay `o` and a selected target `v` both exist, `repositionElements`
returns the same controller state except for the style of the overlay, where
`left = R.left - C.left - 1 + scrollLeft`, `top = R.top - C.top + scrollTop`,
`width = R.width`, `height = R.height`, each with the `px` suffix (`R` the bounding
rectangle of the target, `C` that of the container); every other style property of the
overlay keeps its value. -/
theorem repositionElements_box (w : World) (s : State) (o : Overlay) (v : Nat)
    (ho : s.overlay = some o) (hv : s.vid = some v) :
    ∃ st : Style,
      repositionElements w s = { s with overlay := some { o with style := st } } ∧
      st.get "left" =
        px ((boundingClientRect w v).left - w.containerRect.left - 1 + w.scrollLeft) ∧
      st.get "top" = px ((boundingClientRect w v).top - w.containerRect.top + w.scrollTop) ∧
      st.get "width" = px (boundingClientRect w v).width ∧
      st.get "height" = px (boundingClientRect w v).height ∧
      ∀ k : String, k ≠ "left" → k ≠ "top" → k ≠ "width" → k ≠ "height" →
        st.get k = o.style.get k :=
  ⟨boxStyle w v o.style, repositionElements_of_some w s o v ho hv, boxStyle_left w v _,
    boxStyle_top w v _, boxStyle_width w v _, boxStyle_height w v _,
    fun k hl ht hw hh => boxStyle_other w v _ k hl ht hw hh⟩

/-! ## What each method does to each field -/

@[simp] theorem setUserSelect_vid (x : String) (s : State) :
    (setUserSelect x s).vid = s.vid := rfl
@[simp] theorem setUserSelect_overlay (x : String) (s : State) :
    (setUserSelect x s).overlay = s.overlay := rfl
@[simp] theorem setUserSelect_modules (x : String) (s : State) :
    (setUserSelect x s).modules = s.modules := rfl
@[simp] theorem setUserSelect_log (x : String) (s : State) :
    (setUserSelect x s).log = s.log := rfl
@[simp] theorem setUserSelect_nextInst (x : String) (s : State) :
    (setUserSelect x s).nextInst = s.nextInst := rfl
@[simp] theorem setUserSelect_nextNode (x : String) (s : State) :
    (setUserSelect x s).nextNode = s.nextNode := rfl
@[simp] theorem setUserSelect_moduleClasses (x : String) (s : State) :
    (setUserSelect x s).moduleClasses = s.moduleClasses := rfl
@[simp] theorem setUserSelect_listeners (x : String) (s : State) :
    (setUserSelect x s).listeners = s.listeners := rfl
@[simp] theorem setUserSelect_parentChildren (x : String) (s : State) :
    (setUserSelect x s).parentChildren = s.parentChildren := rfl

@[simp] theorem hideOverlay_vid (s : State) : (hideOverlay s).vid = s.vid := by
  unfold hideOverlay; cases s.overlay <;> rfl
@[simp] theorem hideOverlay_overlay (s : State) : (hideOverlay s).overlay = none := by
  unfold hideOverlay; cases h : s.overlay
  · exact h
  · rfl
@[simp] theorem hideOverlay_modules (s : State) : (hideOverlay s).modules = s.modules := by
  unfold hideOverlay; cases s.overlay <;> rfl
@[simp] theorem hideOverlay_log (s : State) : (hideOverlay s).log = s.log := by
  unfold hideOverlay; cases s.overlay <;> rfl
@[simp] theorem hideOverlay_nextInst (s : State) : (hideOverlay s).nextInst = s.nextInst := by
  unfold hideOverlay; cases s.overlay <;> rfl
@[simp] theorem hideOverlay_nextNode (s : State) : (hideOverlay s).nextNode = s.nextNode := by
  unfold hideOverlay; cases s.overlay <;> rfl
@[simp] theorem hideOverlay_moduleClasses (s : State) :
    (hideOverlay s).moduleClasses = s.moduleClasses := by
  unfold hideOverlay; cases s.overlay <;> rfl

@[simp] theorem removeModules_vid (s : State) : (removeModules s).vid = s.vid := rfl
@[simp] theorem removeModules_overlay (s : State) : (removeModules s).overlay = s.overlay := rfl
@[simp] theorem removeModules_modules (s : State) : (removeModules s).modules = [] := rfl
@[simp] theorem removeModules_log (s : State) :
    (removeModules s).log = s.log ++ s.modules.map (fun m => Event.onDestroy m.id) := rfl
@[simp] theorem removeModules_nextInst (s : State) :
    (removeModules s).nextInst = s.nextInst := rfl
@[simp] theorem removeModules_moduleClasses (s : State) :
    (removeModules s).moduleClasses = s.moduleClasses := rfl

@[simp] theorem repositionElements_vid (w : World) (s : State) :
    (repositionElements w s).vid = s.vid := by
  unfold repositionElements; split <;> rfl
@[simp] theorem repositionElements_modules (w : World) (s : State) :
    (repositionElements w s).modules = s.modules := by
  unfold repositionElements; split <;> rfl
@[simp] theorem repositionElements_log (w : World) (s : State) :
    (repositionElements w s).log = s.log := by
  unfold repositionElements; split <;> rfl
@[simp] theorem repositionElements_nextInst (w : World) (s : State) :
    (repositionElements w s).nextInst = s.nextInst := by
  unfold repositionElements; split <;> rfl
@[simp] theorem repositionElements_moduleClasses (w : World) (s : State) :
    (repositionElements w s).moduleClasses = s.moduleClasses := by
  unfold repositionElements; split <;> rfl
@[simp] theorem repositionElements_overlay_isSome (w : World) (s : State) :
    (repositionElements w s).overlay.isSome = s.overlay.isSome := by
  unfold repositionElements; split
  · rename_i o v ho hv; simp [ho]
  · rfl

@[simp] theorem onUpdate_vid (w : World) (s : State) : (onUpdate w s).vid = s.vid := by
  simp [onUpdate]
@[simp] theorem onUpdate_modules (w : World) (s : State) :
    (onUpdate w s).modules = s.modules := by
  simp [onUpdate]
@[simp] theorem onUpdate_log (w : World) (s : State) :
    (onUpdate w s).log = s.log ++ s.modules.map (fun m => Event.onUpdate m.id) := by
  simp [onUpdate]
@[simp] theorem onUpdate_nextInst (w : World) (s : State) :
    (onUpdate w s).nextInst = s.nextInst := by
  simp [onUpdate]
@[simp] theorem onUpdate_moduleClasses (w : World) (s : State) :
    (onUpdate w s).moduleClasses = s.moduleClasses := by
  simp [onUpdate]
@[simp] theorem onUpdate_overlay_isSome (w : World) (s : State) :
    (onUpdate w s).overlay.isSome = s.overlay.isSome := by
  simp [onUpdate]

@[simp] theorem showOverlay_vid (w : World) (s : State) : (showOverlay w s).vid = s.vid := by
  unfold showOverlay; split <;> simp
@[simp] theorem showOverlay_modules (w : World) (s : State) :
    (showOverlay w s).modules = s.modules := by
  unfold showOverlay; split <;> simp
@[simp] theorem showOverlay_log (w : World) (s : State) :
    (showOverlay w s).log = s.log ++ [Event.setSelectionNull] := by
  unfold showOverlay; split <;> simp
@[simp] theorem showOverlay_nextInst (w : World) (s : State) :
    (showOverlay w s).nextInst = s.nextInst := by
  unfold showOverlay; split <;> simp
@[simp] theorem showOverlay_moduleClasses (w : World) (s : State) :
    (showOverlay w s).moduleClasses = s.moduleClasses := by
  unfold showOverlay; split <;> simp
@[simp] theorem showOverlay_overlay_isSome (w : World) (s : State) :
    (showOverlay w s).overlay.isSome = true := by
  unfold showOverlay; split <;> simp

@[simp] theorem initializeModules_vid (w : World) (s : State) :
    (initializeModules w s).vid = s.vid := by
  simp [initializeModules]
@[simp] theorem initializeModules_modules (w : World) (s : State) :
    (initializeModules w s).modules = instantiate s.nextInst s.moduleClasses := by
  simp [initializeModules]
@[simp] theorem initializeModules_nextInst (w : World) (s : State) :
    (initializeModules w s).nextInst = s.nextInst + s.moduleClasses.length := by
  simp [initializeModules]
@[simp] theorem initializeModules_moduleClasses (w : World) (s : State) :
    (initializeModules w s).moduleClasses = s.moduleClasses := by
  simp [initializeModules]
@[simp] theorem initializeModules_overlay_isSome (w : World) (s : State) :
    (initializeModules w s).overlay.isSome = s.overlay.isSome := by
  simp [initializeModules]
theorem initializeModules_log (w : World) (s : State) :
    (initializeModules w s).log =
      s.log ++ s.modules.map (fun m => Event.onDestroy m.id)
        ++ (instantiate s.nextInst s.moduleClasses).map (fun m => Event.construct m.id m.cls)
        ++ (instantiate s.nextInst s.moduleClasses).map (fun m => Event.onCreate m.id)
        ++ (instantiate s.nextInst s.moduleClasses).map (fun m => Event.onUpdate m.id) := by
  simp [initializeModules]

@[simp] theorem showTarget_vid (w : World) (t : Nat) (s : State) :
    (showTarget w t s).vid = some t := by
  simp [showTarget]
@[simp] theorem showTarget_modules (w : World) (t : Nat) (s : State) :
    (showTarget w t s).modules = instantiate s.nextInst s.moduleClasses := by
  simp [showTarget]
@[simp] theorem showTarget_nextInst (w : World) (t : Nat) (s : State) :
    (showTarget w t s).nextInst = s.nextInst + s.moduleClasses.length := by
  simp [showTarget]
@[simp] theorem showTarget_moduleClasses (w : World) (t : Nat) (s : State) :
    (showTarget w t s).moduleClasses = s.moduleClasses := by
  simp [showTarget]
@[simp] theorem showTarget_overlay_isSome (w : World) (t : Nat) (s : State) :
    (showTarget w t s).overlay.isSome = true := by
  simp [showTarget]
theorem showTarget_log (w : World) (t : Nat) (s : State) :
    (showTarget w t s).log =
      s.log ++ [Event.setSelectionNull] ++ s.modules.map (fun m => Event.onDestroy m.id)
        ++ (instantiate s.nextInst s.moduleClasses).map (fun m => Event.construct m.id m.cls)
        ++ (instantiate s.nextInst s.moduleClasses).map (fun m => Event.onCreate m.id)
        ++ (instantiate s.nextInst s.moduleClasses).map (fun m => Event.onUpdate m.id) := by
  simp [showTarget, initializeModules_log]

@[simp] theorem hide_vid (s : State) : (hide s).vid = none := rfl
@[simp] theorem hide_overlay (s : State) : (hide s).overlay = none := by
  simp [hide]
@[simp] theorem hide_modules (s : State) : (hide s).modules = [] := rfl
@[simp] theorem hide_log (s : State) :
    (hide s).log = s.log ++ s.modules.map (fun m => Event.onDestroy m.id) := by
  simp [hide]
@[simp] theorem hide_nextInst (s : State) : (hide s).nextInst = s.nextInst := by
  simp [hide]
@[simp] theorem hide_moduleClasses (s : State) : (hide s).moduleClasses = s.moduleClasses := by
  simp [hide]

/-! ## Hit testing -/

theorem isIframe_of_mem_querySelectorAll (w : World) (e : Element)
    (h : e ∈ querySelectorAll w) : isIframe e = true := by
  unfold querySelectorAll at h
  exact (List.mem_filter.mp h).2

theorem containsPoint_eq_false_iff (r : DOMRect) (x y : Int) :
    r.containsPoint x y = false ↔ (x < r.x ∨ x > r.right ∨ y < r.y ∨ y > r.bottom) := by
  unfold DOMRect.containsPoint DOMRect.left DOMRect.top
  rw [decide_eq_false_iff_not]
  constructor
  · intro h
    by_contra hc
    push_neg at hc
    exact h ⟨hc.1, hc.2.1, hc.2.2.1, hc.2.2.2⟩
  · rintro h ⟨h1, h2, h3, h4⟩
    rcases h with h | h | h | h <;> omega

/-- The state `handleClick` returns from inside its loop when the first match is `t`. -/
theorem handleClickLoop_eq (w : World) (evt : MouseEvent) (s : State) :
    ∀ l : List Element, (∀ e ∈ l, isIframe e = true) →
      handleClickLoop w evt s l =
        (l.find? (fun e => e.rect.containsPoint evt.clientX evt.clientY)).map
          (fun t => if s.vid = some t.id then s
            else showTarget w t.id (if s.vid.isSome then hide s else s)) := by
  intro l
  induction l with
  | nil => intro _; rfl
  | cons v rest ih =>
    intro hl
    have hv : isIframe v = true := hl v (List.mem_cons_self _ _)
    have ih' := ih (fun e he => hl e (List.mem_cons_of_mem _ he))
    cases hc : v.rect.containsPoint evt.clientX evt.clientY
    · rw [List.find?_cons_of_neg _ (by simp [hc])]
      rw [containsPoint_eq_false_iff] at hc
      unfold handleClickLoop
      by_cases h1 : evt.clientX < v.rect.x
      · simp only [h1, if_true]; exact ih'
      · by_cases h2 : evt.clientX > v.rect.right
        · simp only [h1, h2, if_true, if_false]; exact ih'
        · by_cases h3 : evt.clientY < v.rect.y
          · simp only [h1, h2, h3, if_true, if_false]; exact ih'
          · by_cases h4 : evt.clientY > v.rect.bottom
            · simp only [h1, h2, h3, h4, if_true, if_false]; exact ih'
            · exfalso
              rcases hc with h | h | h | h
              · exact h1 h
              · exact h2 h
              · exact h3 h
              · exact h4 h
    · rw [List.find?_cons]
      simp only [hc]
      unfold DOMRect.containsPoint DOMRect.left DOMRect.top at hc
      rw [decide_eq_true_iff] at hc
      obtain ⟨h1, h2, h3, h4⟩ := hc
      unfold handleClickLoop
      simp only [not_lt.mpr h1, not_lt.mpr h2, not_lt.mpr h3, not_lt.mpr h4, gt_iff_lt,
        if_false, hv, if_true, Option.map_some']
      split <;> rfl

theorem handleClick_root (w : World) (evt : MouseEvent) (s : State)
    (hroot : evt.target = Node.root) :
    handleClick w evt s =
      match firstHit w evt with
      | some t => if s.vid = some t.id then s
          else showTarget w t.id (if s.vid.isSome then hide s else s)
      | none => if s.vid.isSome then hide s else s := by
  unfold handleClick firstHit
  simp only [hroot, if_true]
  rw [handleClickLoop_eq w evt s _ (isIframe_of_mem_querySelectorAll w)]
  cases (querySelectorAll w).find? (fun e => e.rect.containsPoint evt.clientX evt.clientY)
    <;> rfl

/-- C2: for a click whose target is the editor root, `handleClick` ends with the
selected target equal to the first iframe, in document order, whose bounding rectangle
contains the pointer position with all four edges inclusive, and with no selected target
when no iframe's rectangle contains it, whatever the prior state. -/
theorem handleClick_selects_first_hit (w : World) (evt : MouseEvent) (s : State)
    (hroot : evt.target = Node.root) :
    (handleClick w evt s).vid = (firstHit w evt).map Element.id := by
  rw [handleClick_root w evt s hroot]
  cases hf : firstHit w evt with
  | none =>
    simp only [Option.map_none']
    cases hv : s.vid <;> simp [hv]
  | some t =>
    simp only [Option.map_some']
    by_cases hv : s.vid = some t.id
    · simp [hv]
    · simp [hv]

/-- C4: in a state whose selected target is `a`, a click on the editor root whose first
hit-test match is `a` returns the state unchanged (selected target, overlay, module
instances and the trace of `onCreate`/`onDestroy` calls included), so a second such click
changes nothing either. -/
theorem handleClick_same_target (w : World) (evt : MouseEvent) (s : State) (a : Nat)
    (hroot : evt.target = Node.root) (hsel : s.vid = some a)
    (hhit : (firstHit w evt).map Element.id = some a) :
    handleClick w evt s = s ∧
      handleClick w evt (handleClick w evt s) = handleClick w evt s ∧
      (handleClick w evt (handleClick w evt s)).log = s.log := by
  have h1 : handleClick w evt s = s := by
    rw [handleClick_root w evt s hroot]
    cases hf : firstHit w evt with
    | none => simp [hf] at hhit
    | some t =>
      simp only [hf, Option.map_some', Option.some.injEq] at hhit
      simp [hsel, hhit]
  refine ⟨h1, ?_, ?_⟩
  · rw [h1, h1]
  · rw [h1, h1]

/-- Witness for C1 on the rectangles of the specification: target
`left 120, top 40, width 300, height 240`, container at `(10, 10)`, no scroll. -/
theorem repositionElements_box_witness :
    demoSelected.vid = some 7 ∧
    ∃ o : Overlay, demoSelected.overlay = some o ∧
    ∃ st : Style,
      repositionElements demoWorld demoSelected =
        { demoSelected with overlay := some { o with style := st } } ∧
      st.get "left" = "109px" ∧ st.get "top" = "30px" ∧
      st.get "width" = "300px" ∧ st.get "height" = "240px" := by
  have hv : demoSelected.vid = some 7 := by simp [demoSelected]
  obtain ⟨o, ho⟩ := Option.isSome_iff_exists.mp
    (showTarget_overlay_isSome demoWorld 7 demoFresh)
  obtain ⟨st, h, hl, ht, hw, hh, _⟩ :=
    repositionElements_box demoWorld demoSelected o 7 ho hv
  refine ⟨hv, o, ho, st, h, ?_, ?_, ?_, ?_⟩
  · rw [hl]; decide
  · rw [ht]; decide
  · rw [hw]; decide
  · rw [hh]; decide

/-- Witness for C2: a click on the bottom right corner of the first iframe selects it,
and a click one pixel further right, outside every rectangle, deselects. -/
theorem handleClick_selects_first_hit_witness :
    (handleClick demoWorld ⟨Node.root, 420, 280⟩ demoFresh).vid = some 7 ∧
    (handleClick demoWorld ⟨Node.root, 421, 280⟩ demoSelected).vid = none :=
  ⟨(handleClick_selects_first_hit demoWorld ⟨Node.root, 420, 280⟩ demoFresh rfl).trans
      (by decide),
   (handleClick_selects_first_hit demoWorld ⟨Node.root, 421, 280⟩ demoSelected rfl).trans
      (by decide)⟩

/-- Witness for C4: with the iframe `7` selected, a click inside its rectangle. -/
theorem handleClick_same_target_witness :
    handleClick demoWorld ⟨Node.root, 200, 100⟩ demoSelected = demoSelected ∧
    handleClick demoWorld ⟨Node.root, 200, 100⟩
        (handleClick demoWorld ⟨Node.root, 200, 100⟩ demoSelected) =
      handleClick demoWorld ⟨Node.root, 200, 100⟩ demoSelected ∧
    (handleClick demoWorld ⟨Node.root, 200, 100⟩
        (handleClick demoWorld ⟨Node.root, 200, 100⟩ demoSelected)).log = demoSelected.log :=
  handleClick_same_target demoWorld ⟨Node.root, 200, 100⟩ demoSelected 7 rfl
    (by simp [demoSelected]) (by decide)

/-! ## Deletion and mutation events -/

theorem deletionRequests_append (l₁ l₂ : List Event) :
    deletionRequests (l₁ ++ l₂) = deletionRequests l₁ + deletionRequests l₂ := by
  induction l₁ with
  | nil => simp [deletionRequests]
  | cons e rest ih =>
    cases e <;> simp [deletionRequests, ih]
    omega

theorem deletionRequests_onDestroy (ms : List ModuleInst) :
    deletionRequests (ms.map (fun m => Event.onDestroy m.id)) = 0 := by
  induction ms with
  | nil => rfl
  | cons m rest ih => simpa [deletionRequests] using ih

theorem checkVideo_of_none (evt : KeyEvent) (s : State) (h : s.vid = none) :
    checkVideo evt s = s := by
  simp [checkVideo, h]

theorem checkVideo_delete_key (evt : KeyEvent) (s : State) (v : Nat) (h : s.vid = some v)
    (hk : evt.keyCode = some 46 ∨ evt.keyCode = some 8) :
    checkVideo evt s = hide { s with log := s.log ++ [Event.deleteAt v 0] } := by
  simp [checkVideo, h, hk]

theorem checkVideo_other_key (evt : KeyEvent) (s : State) (v : Nat) (h : s.vid = some v)
    (hk : ¬ (evt.keyCode = some 46 ∨ evt.keyCode = some 8)) :
    checkVideo evt s = hide s := by
  simp [checkVideo, h, hk]

/-- C5: for an event with key code 46 or 8, `checkVideo` with a selected target `v` adds
to the trace exactly one deletion request, `deleteAt(0)` on `v`, followed only by the
`onDestroy` calls of the active modules, and ends with no selected target, no overlay
and no modules; with nothing selected it returns the state unchanged.  For every event
and state, the number of deletion requests grows only when a target is selected and the
key code is 46 or 8. -/
theorem checkVideo_deletion (evt : KeyEvent) (s : State)
    (hk : evt.keyCode = some 46 ∨ evt.keyCode = some 8) :
    (∀ v : Nat, s.vid = some v →
      (checkVideo evt s).log =
        s.log ++ Event.deleteAt v 0 :: s.modules.map (fun m => Event.onDestroy m.id) ∧
      deletionRequests (checkVideo evt s).log = deletionRequests s.log + 1 ∧
      (checkVideo evt s).vid = none ∧ (checkVideo evt s).overlay = none ∧
      (checkVideo evt s).modules = []) ∧
    (s.vid = none → checkVideo evt s = s) ∧
    (∀ (evt' : KeyEvent) (s' : State),
      (s'.vid = none ∨ ¬ (evt'.keyCode = some 46 ∨ evt'.keyCode = some 8)) →
      deletionRequests (checkVideo evt' s').log = deletionRequests s'.log) := by
  refine ⟨?_, checkVideo_of_none evt s, ?_⟩
  · intro v hv
    rw [checkVideo_delete_key evt s v hv hk]
    refine ⟨by simp, ?_, by simp, by simp, by simp⟩
    simp [deletionRequests_append, deletionRequests_onDestroy, deletionRequests]
  · intro evt' s' h
    cases hv : s'.vid with
    | none => rw [checkVideo_of_none evt' s' hv]
    | some v =>
      have hk' : ¬ (evt'.keyCode = some 46 ∨ evt'.keyCode = some 8) := by
        rcases h with h | h
        · rw [hv] at h; exact absurd h (by simp)
        · exact h
      rw [checkVideo_other_key evt' s' v hv hk']
      simp [deletionRequests_append, deletionRequests_onDestroy]

/-- Witness for C5: the Delete key with the iframe `7` selected, and with nothing
selected. -/
theorem checkVideo_deletion_witness :
    deletionRequests (checkVideo ⟨some 46⟩ demoSelected).log =
      deletionRequests demoSelected.log + 1 ∧
    (checkVideo ⟨some 46⟩ demoSelected).vid = none ∧
    checkVideo ⟨some 46⟩ demoFresh = demoFresh :=
  have h := checkVideo_deletion ⟨some 46⟩ demoSelected (Or.inl rfl)
  have h7 := h.1 7 (by simp [demoSelected])
  ⟨h7.2.1, h7.2.2.1, (checkVideo_deletion ⟨some 46⟩ demoFresh (Or.inl rfl)).2.1 rfl⟩

/-- C10: an event delivered to `checkVideo` while a target is selected, whose key code
is neither 46 nor 8 (or is absent, as for an `input` event), ends in the state `hide`
produces: no selected target, no overlay, no modules, the active modules destroyed, and
no deletion request issued.  The document is not consulted. -/
theorem checkVideo_forces_idle (evt : KeyEvent) (s : State) (v : Nat)
    (hv : s.vid = some v) (h46 : evt.keyCode ≠ some 46) (h8 : evt.keyCode ≠ some 8) :
    checkVideo evt s = hide s ∧
    (checkVideo evt s).vid = none ∧ (checkVideo evt s).overlay = none ∧
    (checkVideo evt s).modules = [] ∧
    (checkVideo evt s).log = s.log ++ s.modules.map (fun m => Event.onDestroy m.id) ∧
    deletionRequests (checkVideo evt s).log = deletionRequests s.log := by
  have hk : ¬ (evt.keyCode = some 46 ∨ evt.keyCode = some 8) := by
    rintro (h | h)
    · exact h46 h
    · exact h8 h
  rw [checkVideo_other_key evt s v hv hk]
  refine ⟨rfl, by simp, by simp, by simp, by simp, ?_⟩
  simp [deletionRequests_append, deletionRequests_onDestroy]

/-- Witness for C10: an `input` event (no key code) with the iframe `7` selected. -/
theorem checkVideo_forces_idle_witness :
    checkVideo ⟨none⟩ demoSelected = hide demoSelected ∧
    (checkVideo ⟨none⟩ demoSelected).vid = none ∧
    (checkVideo ⟨none⟩ demoSelected).overlay = none ∧
    (checkVideo ⟨none⟩ demoSelected).modules = [] ∧
    (checkVideo ⟨none⟩ demoSelected).log =
      demoSelected.log ++ demoSelected.modules.map (fun m => Event.onDestroy m.id) ∧
    deletionRequests (checkVideo ⟨none⟩ demoSelected).log =
      deletionRequests demoSelected.log :=
  checkVideo_forces_idle ⟨none⟩ demoSelected 7 (by simp [demoSelected]) (by decide)
    (by decide)

/-! ## Undoing `show` -/

theorem setUserSelect_rootStyle (x : String) (s : State) :
    (setUserSelect x s).rootStyle =
      (((s.rootStyle.set "userSelect" x).set "mozUserSelect" x).set "webkitUserSelect" x).set
        "msUserSelect" x := rfl

theorem setUserSelect_docStyle (x : String) (s : State) :
    (setUserSelect x s).docStyle =
      (((s.docStyle.set "userSelect" x).set "mozUserSelect" x).set "webkitUserSelect" x).set
        "msUserSelect" x := rfl

theorem get_userSelect_chain (st : Style) (x p : String) (hp : p ∈ userSelectProps) :
    Style.get ((((st.set "userSelect" x).set "mozUserSelect" x).set "webkitUserSelect" x).set
        "msUserSelect" x) p = x := by
  simp only [userSelectProps, List.mem_cons, List.mem_singleton, List.not_mem_nil,
    or_false] at hp
  rcases hp with rfl | rfl | rfl | rfl
  · rw [Style.get_set_of_ne _ _ _ _ (by decide), Style.get_set_of_ne _ _ _ _ (by decide),
      Style.get_set_of_ne _ _ _ _ (by decide), Style.get_set_self]
  · rw [Style.get_set_of_ne _ _ _ _ (by decide), Style.get_set_of_ne _ _ _ _ (by decide),
      Style.get_set_self]
  · rw [Style.get_set_of_ne _ _ _ _ (by decide), Style.get_set_self]
  · rw [Style.get_set_self]

theorem hideOverlay_of_some (s : State) (o : Overlay) (h : s.overlay = some o) :
    hideOverlay s =
      setUserSelect ""
        { s with
          parentChildren := removeChild s.parentChildren o.node
          overlay := none
          listeners :=
            removeEventListener
              (removeEventListener s.listeners ⟨.document, "keyup", .checkVideo, false⟩)
              ⟨.root, "input", .checkVideo, false⟩ } := by
  simp only [hideOverlay, h]

theorem hide_rootStyle (s : State) : (hide s).rootStyle = (hideOverlay s).rootStyle := rfl
theorem hide_docStyle (s : State) : (hide s).docStyle = (hideOverlay s).docStyle := rfl
theorem hide_parentChildren (s : State) :
    (hide s).parentChildren = (hideOverlay s).parentChildren := rfl
theorem hide_listeners (s : State) : (hide s).listeners = (hideOverlay s).listeners := rfl

theorem repositionElements_parentChildren (w : World) (s : State) :
    (repositionElements w s).parentChildren = s.parentChildren := by
  unfold repositionElements; split <;> rfl

theorem repositionElements_overlay_node (w : World) (s : State) :
    (repositionElements w s).overlay.map Overlay.node = s.overlay.map Overlay.node := by
  unfold repositionElements; split
  · rename_i o v ho hv; simp [ho]
  · rfl

theorem showOverlay_overlay_attached (w : World) (s : State) (o : Overlay)
    (ho : (showOverlay w s).overlay = some o) : o.node ∈ (showOverlay w s).parentChildren := by
  have hn : (showOverlay w s).overlay.map Overlay.node = some o.node := by rw [ho]; rfl
  unfold showOverlay at hn ⊢
  simp only [repositionElements_overlay_node, repositionElements_parentChildren,
    Option.map_some', Option.some.injEq] at hn ⊢
  rw [← hn]
  simp [appendChild]

theorem initializeModules_parentChildren (w : World) (s : State) :
    (initializeModules w s).parentChildren = s.parentChildren := by
  simp [initializeModules, onUpdate, repositionElements_parentChildren, removeModules]

theorem initializeModules_overlay_node (w : World) (s : State) :
    (initializeModules w s).overlay.map Overlay.node = s.overlay.map Overlay.node := by
  simp [initializeModules, onUpdate, repositionElements_overlay_node, removeModules]

theorem showTarget_overlay_attached (w : World) (t : Nat) (s : State) (o : Overlay)
    (ho : (showTarget w t s).overlay = some o) : o.node ∈ (showTarget w t s).parentChildren := by
  have hn : (showTarget w t s).overlay.map Overlay.node = some o.node := by rw [ho]; rfl
  unfold showTarget at hn ⊢
  rw [initializeModules_overlay_node] at hn
  rw [initializeModules_parentChildren]
  cases ho' : (showOverlay w { s with vid := some t }).overlay with
  | none => rw [ho'] at hn; exact absurd hn (by simp)
  | some o' =>
    rw [ho'] at hn
    simp only [Option.map_some', Option.some.injEq] at hn
    rw [← hn]
    exact showOverlay_overlay_attached w _ o' ho'

/-- C6: `show(target)` followed by `hide()` leaves the four user-select properties of
the editor root and of the document element equal to the empty string, the modules list
empty, no overlay (the overlay node that `show` attached to the parent container is no
longer among its children) and no selected target, from every state. -/
theorem show_then_hide (w : World) (t : Nat) (s : State) :
    (∀ p ∈ userSelectProps,
      (hide (showTarget w t s)).rootStyle.get p = "" ∧
      (hide (showTarget w t s)).docStyle.get p = "") ∧
    (hide (showTarget w t s)).modules = [] ∧
    (hide (showTarget w t s)).overlay = none ∧
    (∃ o : Overlay, (showTarget w t s).overlay = some o ∧
      o.node ∈ (showTarget w t s).parentChildren ∧
      o.node ∉ (hide (showTarget w t s)).parentChildren) ∧
    (hide (showTarget w t s)).vid = none := by
  obtain ⟨o, ho⟩ := Option.isSome_iff_exists.mp (showTarget_overlay_isSome w t s)
  refine ⟨?_, hide_modules _, hide_overlay _,
    ⟨o, ho, showTarget_overlay_attached w t s o ho, ?_⟩, hide_vid _⟩
  · intro p hp
    rw [hide_rootStyle, hide_docStyle, hideOverlay_of_some _ o ho, setUserSelect_rootStyle,
      setUserSelect_docStyle]
    exact ⟨get_userSelect_chain _ _ p hp, get_userSelect_chain _ _ p hp⟩
  · rw [hide_parentChildren, hideOverlay_of_some _ o ho]
    show o.node ∉ removeChild (showTarget w t s).parentChildren o.node
    simp [removeChild]

/-! ## Listener registrations -/

/-- C7 (the code at `show` then `hide` on a fresh controller): the two `checkVideo`
registrations made by `showOverlay` with the capture flag set are still present after
`hide`, because `hideOverlay` calls `removeEventListener` without the capture flag; the
registrations are not those from before `show`. -/
theorem hide_leaves_checkVideo_listeners :
    demoFresh.listeners = [⟨.root, "click", .click, false⟩] ∧
    (hide (showTarget demoWorld 7 demoFresh)).listeners =
      [⟨.root, "click", .click, false⟩, ⟨.document, "keyup", .checkVideo, true⟩,
       ⟨.root, "input", .checkVideo, true⟩] ∧
    (hide (showTarget demoWorld 7 demoFresh)).listeners ≠ demoFresh.listeners := by
  decide

/-! ## Repositioning when the target has left the document -/

/-- C9 fails as stated: with the iframe `7` selected and then removed from the document,
`repositionElements` and `onUpdate` keep the selected target, the overlay and the modules,
and write the box of the zero rectangle of the detached element into the overlay. -/
theorem repositionElements_detached_target :
    demoSelected.vid = some 7 ∧
    (∀ e ∈ demoWorldDetached.descendants, e.id ≠ 7) ∧
    (repositionElements demoWorldDetached demoSelected).vid = some 7 ∧
    (onUpdate demoWorldDetached demoSelected).vid = some 7 ∧
    (onUpdate demoWorldDetached demoSelected).modules.length = 3 ∧
    (repositionElements demoWorldDetached demoSelected).overlay =
      some ⟨0, [("position", "absolute"), ("border", "1px dashed #444"), ("left", "-11px"),
        ("top", "-10px"), ("width", "0px"), ("height", "0px")]⟩ := by
  decide

/-- C9 as amended: `repositionElements` has one guard, that an overlay and a selected
target are set; it makes no check that the target is still in the document.  With both
set it keeps the selected target and the modules and restyles the overlay from the
rectangle the target reports at that time; `onUpdate` likewise keeps the selected target,
the modules and the presence of the overlay.  When the overlay or the selected target is
missing, `repositionElements` returns the state unchanged.  In no case does it change the
selected target, the modules or the presence of the overlay. -/
theorem repositionElements_keeps_selection (w : World) (s : State) :
    (∀ (o : Overlay) (v : Nat), s.overlay = some o → s.vid = some v →
      (repositionElements w s).vid = some v ∧
      (repositionElements w s).modules = s.modules ∧
      (repositionElements w s).overlay = some { o with style := boxStyle w v o.style } ∧
      (onUpdate w s).vid = some v ∧
      (onUpdate w s).modules = s.modules ∧
      (onUpdate w s).overlay.isSome = true) ∧
    ((s.overlay = none ∨ s.vid = none) → repositionElements w s = s) ∧
    (repositionElements w s).vid = s.vid ∧
    (repositionElements w s).modules = s.modules ∧
    (repositionElements w s).overlay.isSome = s.overlay.isSome := by
  refine ⟨?_, ?_, by simp, by simp, by simp⟩
  · intro o v ho hv
    refine ⟨?_, by simp, ?_, ?_, by simp, ?_⟩
    · simp [hv]
    · rw [repositionElements_of_some w s o v ho hv]
    · simp [hv]
    · simp [ho]
  · intro h
    unfold repositionElements
    cases ho : s.overlay with
    | none => rfl
    | some o =>
      cases hv : s.vid with
      | none => rfl
      | some v =>
        rcases h with h | h
        · rw [ho] at h; exact absurd h (by simp)
        · rw [hv] at h; exact absurd h (by simp)

/-- Witness for the amended C9: at the document from which the selected iframe `7` has
been removed the selection and the overlay stay, and on the fresh controller, which has
neither overlay nor selected target, nothing changes. -/
theorem repositionElements_keeps_selection_witness :
    (repositionElements demoWorldDetached demoSelected).vid = some 7 ∧
    (onUpdate demoWorldDetached demoSelected).vid = some 7 ∧
    (onUpdate demoWorldDetached demoSelected).overlay.isSome = true ∧
    repositionElements demoWorldDetached demoFresh = demoFresh := by
  obtain ⟨o, ho⟩ := Option.isSome_iff_exists.mp
    (showTarget_overlay_isSome demoWorld 7 demoFresh)
  have h := (repositionElements_keeps_selection demoWorldDetached demoSelected).1 o 7 ho
    (by simp [demoSelected])
  exact ⟨h.1, h.2.2.2.1, h.2.2.2.2.2,
    (repositionElements_keeps_selection demoWorldDetached demoFresh).2.1 (Or.inl rfl)⟩

/-! ## Selection, overlay and modules in reachable states -/

theorem instantiate_length (n : Nat) (cs : List ModuleClass) :
    (instantiate n cs).length = cs.length := by
  induction cs generalizing n with
  | nil => rfl
  | cons c rest ih => simp [instantiate, ih]

theorem handleClick_not_root (w : World) (evt : MouseEvent) (s : State)
    (h : evt.target ≠ Node.root) :
    handleClick w evt s = if s.vid.isSome then hide s else s := by
  simp [handleClick, h]

theorem coherent_showTarget (w : World) (t : Nat) (s : State) :
    Coherent (showTarget w t s) := by
  refine ⟨by simp, by simp [instantiate_length], ?_⟩
  intro m hm
  rw [showTarget_modules] at hm
  rw [showTarget_log]
  simp only [List.mem_append, List.mem_map]
  exact Or.inl (Or.inr ⟨m, hm, rfl⟩)

theorem coherent_hide (s : State) : Coherent (hide s) := by
  refine ⟨by simp, by simp, ?_⟩
  intro m hm
  simp at hm

theorem coherent_onUpdate (w : World) (s : State) (h : Coherent s) :
    Coherent (onUpdate w s) := by
  obtain ⟨h1, h2, h3⟩ := h
  refine ⟨by simpa using h1, by simpa using h2, ?_⟩
  intro m hm
  rw [onUpdate_modules] at hm
  rw [onUpdate_log]
  exact List.mem_append_left _ (h3 m hm)

theorem coherent_checkVideo (evt : KeyEvent) (s : State) (h : Coherent s) :
    Coherent (checkVideo evt s) := by
  unfold checkVideo
  split
  · exact coherent_hide _
  · exact h

theorem coherent_handleClick (w : World) (evt : MouseEvent) (s : State) (h : Coherent s) :
    Coherent (handleClick w evt s) := by
  by_cases hroot : evt.target = Node.root
  · rw [handleClick_root w evt s hroot]
    split
    · split
      · exact h
      · exact coherent_showTarget _ _ _
    · split
      · exact coherent_hide _
      · exact h
  · rw [handleClick_not_root w evt s hroot]
    split
    · exact coherent_hide _
    · exact h

theorem coherent_step {s s' : State} (hs : Step s s') (h : Coherent s) : Coherent s' := by
  cases hs with
  | handleClick w evt => exact coherent_handleClick w evt s h
  | checkVideo evt => exact coherent_checkVideo evt s h
  | showTarget w t => exact coherent_showTarget w t s
  | hide => exact coherent_hide s
  | onUpdate w => exact coherent_onUpdate w s h

theorem coherent_construct (host : Host) (options : Options) (defaults : DefaultOptions) :
    Coherent (construct host options defaults) := by
  refine ⟨by simp [construct], by simp [construct], ?_⟩
  intro m hm
  simp [construct] at hm

theorem moduleClasses_step {s s' : State} (hs : Step s s') :
    s'.moduleClasses = s.moduleClasses := by
  cases hs with
  | handleClick w evt =>
    by_cases hroot : evt.target = Node.root
    · rw [handleClick_root w evt s hroot]
      split
      · split
        · rfl
        · rw [showTarget_moduleClasses]; split <;> simp
      · split <;> simp
    · rw [handleClick_not_root w evt s hroot]
      split <;> simp
  | checkVideo evt =>
    unfold checkVideo
    split
    · rw [hide_moduleClasses]; split <;> rfl
    · rfl
  | showTarget w t => simp
  | hide => simp
  | onUpdate w => simp

/-- C3 fails as stated: a controller configured with an empty module list, after a click
inside the iframe `7`, has a selected target and an overlay while its modules list is
empty. -/
theorem selected_with_empty_modules :
    Reachable demoFreshNoModules
      (handleClick demoWorld ⟨Node.root, 200, 100⟩ demoFreshNoModules) ∧
    (handleClick demoWorld ⟨Node.root, 200, 100⟩ demoFreshNoModules).vid = some 7 ∧
    (handleClick demoWorld ⟨Node.root, 200, 100⟩ demoFreshNoModules).overlay.isSome = true ∧
    (handleClick demoWorld ⟨Node.root, 200, 100⟩ demoFreshNoModules).modules = [] :=
  ⟨Reachable.step Reachable.init (Step.handleClick _ _ _), by decide, by decide, by decide⟩

/-- C3 as amended: in every state reachable from a freshly constructed controller, a
target is selected if and only if the overlay exists; the modules list holds exactly one
object per configured module class while a target is selected and is empty otherwise;
every member of the list has received `onCreate`; so, when the configured module list is
not empty, a target is selected if and only if the modules list is not empty. -/
theorem selection_overlay_modules (host : Host) (options : Options)
    (defaults : DefaultOptions) (s : State)
    (h : Reachable (construct host options defaults) s) :
    (s.vid.isSome ↔ s.overlay.isSome) ∧
    s.modules.length =
      (if s.vid.isSome then (construct host options defaults).moduleClasses.length else 0) ∧
    (∀ m ∈ s.modules, Event.onCreate m.id ∈ s.log) ∧
    ((construct host options defaults).moduleClasses ≠ [] →
      (s.vid.isSome ↔ s.modules ≠ [])) := by
  have hc : Coherent s ∧ s.moduleClasses = (construct host options defaults).moduleClasses := by
    induction h with
    | init => exact ⟨coherent_construct host options defaults, rfl⟩
    | step _ hs ih => exact ⟨coherent_step hs ih.1, (moduleClasses_step hs).trans ih.2⟩
  obtain ⟨⟨h1, h2, h3⟩, h4⟩ := hc
  rw [h4] at h2
  refine ⟨h1, h2, h3, ?_⟩
  intro hne
  have hpos : 0 < (construct host options defaults).moduleClasses.length :=
    List.length_pos.mpr hne
  cases hv : s.vid.isSome
  · rw [hv] at h2
    simp at h2
    simp [h2]
  · rw [hv] at h2
    simp only [if_true] at h2
    have : 0 < s.modules.length := by omega
    simp [List.length_pos.mp this]

/-- Witness for the amended C3: the default controller after the iframe `7` has been
selected. -/
theorem selection_overlay_modules_witness :
    (demoSelected.vid.isSome ↔ demoSelected.overlay.isSome) ∧
    demoSelected.modules.length =
      (if demoSelected.vid.isSome then
        (construct demoHost ⟨none, []⟩ demoDefaults).moduleClasses.length else 0) ∧
    (∀ m ∈ demoSelected.modules, Event.onCreate m.id ∈ demoSelected.log) ∧
    ((construct demoHost ⟨none, []⟩ demoDefaults).moduleClasses ≠ [] →
      (demoSelected.vid.isSome ↔ demoSelected.modules ≠ [])) :=
  selection_overlay_modules demoHost ⟨none, []⟩ demoDefaults demoSelected
    (Reachable.step Reachable.init (Step.showTarget demoWorld 7 _))

/-! ## Module lifecycle -/

theorem instantiate_ids (n : Nat) (cs : List ModuleClass) :
    (instantiate n cs).map ModuleInst.id = List.range' n cs.length := by
  induction cs generalizing n with
  | nil => rfl
  | cons c rest ih => simp [instantiate, ih, List.range'_succ]

theorem mem_instantiate_id (n : Nat) (cs : List ModuleClass) (m : ModuleInst)
    (h : m ∈ instantiate n cs) : n ≤ m.id ∧ m.id < n + cs.length := by
  have : m.id ∈ (instantiate n cs).map ModuleInst.id := List.mem_map_of_mem _ h
  rw [instantiate_ids] at this
  simpa using this

theorem count_onDestroy_map (i : Nat) (ms : List ModuleInst) :
    (ms.map (fun m => Event.onDestroy m.id)).count (Event.onDestroy i) =
      (ms.map ModuleInst.id).count i := by
  induction ms with
  | nil => rfl
  | cons m rest ih => simp [List.count_cons, ih]

theorem count_onCreate_map (i : Nat) (ms : List ModuleInst) :
    (ms.map (fun m => Event.onCreate m.id)).count (Event.onCreate i) =
      (ms.map ModuleInst.id).count i := by
  induction ms with
  | nil => rfl
  | cons m rest ih => simp [List.count_cons, ih]

theorem count_ids_of_nodup (i : Nat) (ids : List Nat) (h : ids.Nodup) :
    ids.count i = if i ∈ ids then 1 else 0 := by
  by_cases hi : i ∈ ids
  · simp [hi, List.count_eq_one_of_mem h hi]
  · simp [hi, List.count_eq_zero_of_not_mem hi]

theorem destroyAfterCreate_nil : DestroyAfterCreate [] := by
  intro pre post i h
  cases pre <;> simp at h

theorem destroyAfterCreate_append (log seg : List Event) (h : DestroyAfterCreate log)
    (hseg : ∀ i, Event.onDestroy i ∈ seg → Event.onCreate i ∈ log) :
    DestroyAfterCreate (log ++ seg) := by
  intro pre post i heq
  rcases List.append_eq_append_iff.mp heq with ⟨a, hpre, hs⟩ | ⟨c, hlog, hc⟩
  · have hmem : Event.onDestroy i ∈ seg := by rw [hs]; simp
    rw [hpre]
    exact List.mem_append_left _ (hseg i hmem)
  · cases c with
    | nil =>
      simp only [List.nil_append] at hc
      simp only [List.append_nil] at hlog
      have hmem : Event.onDestroy i ∈ seg := by rw [← hc]; simp
      rw [← hlog]
      exact hseg i hmem
    | cons d c' =>
      simp only [List.cons_append, List.cons.injEq] at hc
      rw [← hc.1] at hlog
      exact h pre c' i hlog

/-- Appending calls that are neither `onCreate` nor `onDestroy`. -/
theorem lifecycle_append_neutral (ms : List ModuleInst) (n : Nat) (log seg : List Event)
    (h : Lifecycle ms n log)
    (hc : ∀ i, Event.onCreate i ∉ seg) (hd : ∀ i, Event.onDestroy i ∉ seg)
    (hb : ∀ e ∈ seg, ∀ i, e.inst = some i → i < n) :
    Lifecycle ms n (log ++ seg) := by
  obtain ⟨h1, h2, h3, h4, h5, h6⟩ := h
  refine ⟨h1, h2, ?_, ?_, ?_, ?_⟩
  · intro e he i hi
    rcases List.mem_append.mp he with he | he
    · exact h3 e he i hi
    · exact hb e he i hi
  · intro i hi
    rw [List.count_append, h4 i hi, List.count_eq_zero_of_not_mem (hc i)]
  · intro i hi
    rw [List.count_append, h5 i hi, List.count_eq_zero_of_not_mem (hd i)]
    rfl
  · exact destroyAfterCreate_append log seg h6 (fun i hm => absurd hm (hd i))

/-- The effect of `removeModules` on the lifecycle. -/
theorem lifecycle_destroy (ms : List ModuleInst) (n : Nat) (log : List Event)
    (h : Lifecycle ms n log) :
    Lifecycle [] n (log ++ ms.map (fun m => Event.onDestroy m.id)) := by
  obtain ⟨h1, h2, h3, h4, h5, h6⟩ := h
  refine ⟨List.nodup_nil, by simp, ?_, ?_, ?_, ?_⟩
  · intro e he i hi
    rcases List.mem_append.mp he with he | he
    · exact h3 e he i hi
    · obtain ⟨m, hm, rfl⟩ := List.mem_map.mp he
      simp only [Event.inst, Option.some.injEq] at hi
      rw [← hi]
      exact h2 m hm
  · intro i hi
    rw [List.count_append, h4 i hi]
    have : Event.onCreate i ∉ ms.map (fun m => Event.onDestroy m.id) := by simp
    rw [List.count_eq_zero_of_not_mem this]
  · intro i hi
    rw [List.count_append, h5 i hi, count_onDestroy_map, count_ids_of_nodup i _ h1]
    by_cases hmem : i ∈ ms.map ModuleInst.id <;> simp [hmem]
  · apply destroyAfterCreate_append log _ h6
    intro i hm
    obtain ⟨m, hm, heq⟩ := List.mem_map.mp hm
    simp only [Event.onDestroy.injEq] at heq
    have hlt : i < n := by rw [← heq]; exact h2 m hm
    have hcount := h4 i hlt
    exact List.count_pos_iff.mp (by omega)

/-- The effect of the instantiation in `initializeModules` on the lifecycle. -/
theorem lifecycle_instantiate (n : Nat) (cs : List ModuleClass) (log : List Event)
    (h : Lifecycle [] n log) :
    Lifecycle (instantiate n cs) (n + cs.length)
      (log ++ ((instantiate n cs).map (fun m => Event.construct m.id m.cls)
        ++ ((instantiate n cs).map (fun m => Event.onCreate m.id)
        ++ (instantiate n cs).map (fun m => Event.onUpdate m.id)))) := by
  obtain ⟨_, _, h3, h4, h5, h6⟩ := h
  have hold : ∀ i, n ≤ i → Event.onCreate i ∉ log ∧ Event.onDestroy i ∉ log := by
    intro i hi
    constructor
    · intro hm
      have := h3 _ hm i rfl
      omega
    · intro hm
      have := h3 _ hm i rfl
      omega
  have hnd : (List.range' n cs.length).Nodup := List.nodup_range' n cs.length
  refine ⟨?_, ?_, ?_, ?_, ?_, ?_⟩
  · rw [instantiate_ids]; exact hnd
  · intro m hm
    exact (mem_instantiate_id n cs m hm).2
  · intro e he i hi
    rcases List.mem_append.mp he with he | he
    · have := h3 e he i hi
      omega
    · have key : ∃ m ∈ instantiate n cs, e.inst = some m.id := by
        rcases List.mem_append.mp he with he | he
        · obtain ⟨m, hm, rfl⟩ := List.mem_map.mp he
          exact ⟨m, hm, rfl⟩
        · rcases List.mem_append.mp he with he | he
          · obtain ⟨m, hm, rfl⟩ := List.mem_map.mp he
            exact ⟨m, hm, rfl⟩
          · obtain ⟨m, hm, rfl⟩ := List.mem_map.mp he
            exact ⟨m, hm, rfl⟩
      obtain ⟨m, hm, hme⟩ := key
      rw [hme] at hi
      simp only [Option.some.injEq] at hi
      rw [← hi]
      exact (mem_instantiate_id n cs m hm).2
  · intro i hi
    have hcon : Event.onCreate i ∉
        (instantiate n cs).map (fun m => Event.construct m.id m.cls) := by simp
    have hupd : Event.onCreate i ∉
        (instantiate n cs).map (fun m => Event.onUpdate m.id) := by simp
    rw [List.count_append, List.count_append, List.count_append,
      List.count_eq_zero_of_not_mem hcon, List.count_eq_zero_of_not_mem hupd,
      count_onCreate_map, instantiate_ids, count_ids_of_nodup i _ hnd]
    by_cases hlt : i < n
    · rw [h4 i hlt]
      have : i ∉ List.range' n cs.length := by simp; omega
      simp [this]
    · have hge : n ≤ i := Nat.le_of_not_lt hlt
      rw [List.count_eq_zero_of_not_mem (hold i hge).1]
      have : i ∈ List.range' n cs.length := by simp; omega
      simp [this]
  · intro i hi
    have hcon : Event.onDestroy i ∉
        (instantiate n cs).map (fun m => Event.construct m.id m.cls) := by simp
    have hcre : Event.onDestroy i ∉
        (instantiate n cs).map (fun m => Event.onCreate m.id) := by simp
    have hupd : Event.onDestroy i ∉
        (instantiate n cs).map (fun m => Event.onUpdate m.id) := by simp
    rw [List.count_append, List.count_append, List.count_append,
      List.count_eq_zero_of_not_mem hcon, List.count_eq_zero_of_not_mem hcre,
      List.count_eq_zero_of_not_mem hupd, instantiate_ids]
    by_cases hlt : i < n
    · rw [h5 i hlt]
      have : i ∉ List.range' n cs.length := by simp; omega
      simp [this]
    · have hge : n ≤ i := Nat.le_of_not_lt hlt
      rw [List.count_eq_zero_of_not_mem (hold i hge).2]
      have : i ∈ List.range' n cs.length := by simp; omega
      simp [this]
  · apply destroyAfterCreate_append log _ h6
    intro i hm
    simp at hm

theorem lifecycle_construct (host : Host) (options : Options) (defaults : DefaultOptions) :
    Lifecycle (construct host options defaults).modules
      (construct host options defaults).nextInst (construct host options defaults).log := by
  refine ⟨List.nodup_nil, ?_, ?_, ?_, ?_, destroyAfterCreate_nil⟩
  · intro m hm; simp [construct] at hm
  · intro e he; simp [construct] at he
  · intro i hi; simp [construct] at hi
  · intro i hi; simp [construct] at hi

theorem lifecycle_hide (s : State) (h : Lifecycle s.modules s.nextInst s.log) :
    Lifecycle (hide s).modules (hide s).nextInst (hide s).log := by
  rw [hide_modules, hide_nextInst, hide_log]
  exact lifecycle_destroy _ _ _ h

theorem lifecycle_onUpdate (w : World) (s : State)
    (h : Lifecycle s.modules s.nextInst s.log) :
    Lifecycle (onUpdate w s).modules (onUpdate w s).nextInst (onUpdate w s).log := by
  rw [onUpdate_modules, onUpdate_nextInst, onUpdate_log]
  apply lifecycle_append_neutral _ _ _ _ h
  · intro i; simp
  · intro i; simp
  · intro e he i hi
    obtain ⟨m, hm, rfl⟩ := List.mem_map.mp he
    simp only [Event.inst, Option.some.injEq] at hi
    rw [← hi]
    exact h.2.1 m hm

theorem lifecycle_showTarget (w : World) (t : Nat) (s : State)
    (h : Lifecycle s.modules s.nextInst s.log) :
    Lifecycle (showTarget w t s).modules (showTarget w t s).nextInst
      (showTarget w t s).log := by
  rw [showTarget_modules, showTarget_nextInst, showTarget_log]
  have h1 : Lifecycle s.modules s.nextInst (s.log ++ [Event.setSelectionNull]) := by
    apply lifecycle_append_neutral _ _ _ _ h
    · intro i; simp
    · intro i; simp
    · intro e he i hi
      simp only [List.mem_singleton] at he
      subst he
      simp [Event.inst] at hi
  have h2 := lifecycle_destroy _ _ _ h1
  have h3 := lifecycle_instantiate s.nextInst s.moduleClasses _ h2
  simpa only [List.append_assoc] using h3

theorem lifecycle_checkVideo (evt : KeyEvent) (s : State)
    (h : Lifecycle s.modules s.nextInst s.log) :
    Lifecycle (checkVideo evt s).modules (checkVideo evt s).nextInst
      (checkVideo evt s).log := by
  unfold checkVideo
  split
  · apply lifecycle_hide
    split
    · apply lifecycle_append_neutral _ _ _ _ h
      · intro i; simp
      · intro i; simp
      · intro e he i hi
        simp only [List.mem_singleton] at he
        subst he
        simp [Event.inst] at hi
    · exact h
  · exact h

theorem lifecycle_handleClick (w : World) (evt : MouseEvent) (s : State)
    (h : Lifecycle s.modules s.nextInst s.log) :
    Lifecycle (handleClick w evt s).modules (handleClick w evt s).nextInst
      (handleClick w evt s).log := by
  by_cases hroot : evt.target = Node.root
  · rw [handleClick_root w evt s hroot]
    split
    · split
      · exact h
      · apply lifecycle_showTarget
        split
        · exact lifecycle_hide s h
        · exact h
    · split
      · exact lifecycle_hide s h
      · exact h
  · rw [handleClick_not_root w evt s hroot]
    split
    · exact lifecycle_hide s h
    · exact h

theorem lifecycle_step {s s' : State} (hs : Step s s')
    (h : Lifecycle s.modules s.nextInst s.log) :
    Lifecycle s'.modules s'.nextInst s'.log := by
  cases hs with
  | handleClick w evt => exact lifecycle_handleClick w evt s h
  | checkVideo evt => exact lifecycle_checkVideo evt s h
  | showTarget w t => exact lifecycle_showTarget w t s h
  | hide => exact lifecycle_hide s h
  | onUpdate w => exact lifecycle_onUpdate w s h

theorem lifecycle_reachable (init s : State) (hinit : Lifecycle init.modules init.nextInst init.log)
    (h : Reachable init s) : Lifecycle s.modules s.nextInst s.log := by
  induction h with
  | init => exact hinit
  | step _ hs ih => exact lifecycle_step hs ih

theorem handleClick_switch (w : World) (evt : MouseEvent) (s : State) (a : Nat)
    (t : Element) (hsel : s.vid = some a) (hroot : evt.target = Node.root)
    (hhit : firstHit w evt = some t) (hne : t.id ≠ a) :
    handleClick w evt s = showTarget w t.id (hide s) := by
  rw [handleClick_root w evt s hroot, hhit]
  have h1 : s.vid ≠ some t.id := by
    rw [hsel]
    intro h
    exact hne (Option.some.inj h).symm
  simp only []
  rw [if_neg h1, hsel]
  rfl

/-- C8: in every state reachable from a freshly constructed controller, with module
objects numbered in the order of their construction: every object the trace mentions and
every active object was constructed (numbered below the counter); every constructed
object received `onCreate` exactly once and `onDestroy` at most once, never before its
`onCreate`; it received `onDestroy` exactly once if it is no longer in the active list
and not yet if it is.  The objects `show` puts in the active list are new: they are not
in the previous list and no earlier call mentions them.  When a click moves the selection
from `a` to a different target, the trace grows by the `onDestroy` calls of the old
modules, then the constructions, the `onCreate` calls and the `onUpdate` calls of the new
ones.  The same order holds for every call of `show`, in particular for `show(b)` while
`a` is selected: the trace grows by the `onDestroy` calls of all modules active before the
call, then the constructions, the `onCreate` calls and the `onUpdate` calls of the new
ones. -/
theorem module_lifecycle (host : Host) (options : Options) (defaults : DefaultOptions)
    (s : State) (h : Reachable (construct host options defaults) s) :
    (∀ e ∈ s.log, ∀ i, e.inst = some i → i < s.nextInst) ∧
    (∀ m ∈ s.modules, m.id < s.nextInst) ∧
    (∀ i, i < s.nextInst → s.log.count (Event.onCreate i) = 1) ∧
    (∀ i, s.log.count (Event.onDestroy i) ≤ 1) ∧
    DestroyAfterCreate s.log ∧
    (∀ i, i < s.nextInst → i ∉ s.modules.map ModuleInst.id →
      s.log.count (Event.onDestroy i) = 1) ∧
    (∀ m ∈ s.modules, s.log.count (Event.onDestroy m.id) = 0) ∧
    (∀ (w : World) (t : Nat), ∀ m ∈ (showTarget w t s).modules,
      s.nextInst ≤ m.id ∧ m ∉ s.modules ∧ ∀ e ∈ s.log, e.inst ≠ some m.id) ∧
    (∀ (w : World) (evt : MouseEvent) (a : Nat) (t : Element),
      s.vid = some a → evt.target = Node.root → firstHit w evt = some t → t.id ≠ a →
      (handleClick w evt s).vid = some t.id ∧
      (handleClick w evt s).modules = instantiate s.nextInst s.moduleClasses ∧
      (handleClick w evt s).log =
        s.log ++ s.modules.map (fun m => Event.onDestroy m.id) ++ [Event.setSelectionNull]
          ++ (instantiate s.nextInst s.moduleClasses).map
              (fun m => Event.construct m.id m.cls)
          ++ (instantiate s.nextInst s.moduleClasses).map (fun m => Event.onCreate m.id)
          ++ (instantiate s.nextInst s.moduleClasses).map (fun m => Event.onUpdate m.id)) ∧
    (∀ (w : World) (t : Nat),
      (showTarget w t s).vid = some t ∧
      (showTarget w t s).modules = instantiate s.nextInst s.moduleClasses ∧
      (showTarget w t s).log =
        s.log ++ [Event.setSelectionNull] ++ s.modules.map (fun m => Event.onDestroy m.id)
          ++ (instantiate s.nextInst s.moduleClasses).map
              (fun m => Event.construct m.id m.cls)
          ++ (instantiate s.nextInst s.moduleClasses).map (fun m => Event.onCreate m.id)
          ++ (instantiate s.nextInst s.moduleClasses).map (fun m => Event.onUpdate m.id)) := by
  obtain ⟨h1, h2, h3, h4, h5, h6⟩ :=
    lifecycle_reachable _ s (lifecycle_construct host options defaults) h
  refine ⟨h3, h2, h4, ?_, h6, ?_, ?_, ?_, ?_,
    fun w t => ⟨showTarget_vid w t s, showTarget_modules w t s, showTarget_log w t s⟩⟩
  · intro i
    by_cases hi : i < s.nextInst
    · rw [h5 i hi]
      split <;> omega
    · have : Event.onDestroy i ∉ s.log := fun hm => hi (h3 _ hm i rfl)
      rw [List.count_eq_zero_of_not_mem this]
      omega
  · intro i hi hmem
    rw [h5 i hi, if_neg hmem]
  · intro m hm
    have hmem : m.id ∈ s.modules.map ModuleInst.id := List.mem_map_of_mem _ hm
    rw [h5 m.id (h2 m hm), if_pos hmem]
  · intro w t m hm
    rw [showTarget_modules] at hm
    have hge := (mem_instantiate_id _ _ m hm).1
    refine ⟨hge, ?_, ?_⟩
    · intro hmem
      have := h2 m hmem
      omega
    · intro e he hinst
      have := h3 e he m.id hinst
      omega
  · intro w evt a t hsel hroot hhit hne
    rw [handleClick_switch w evt s a t hsel hroot hhit hne]
    refine ⟨by simp, by simp, ?_⟩
    rw [showTarget_log]
    simp

/-- Witness for C8: the default controller after the iframe `7` was selected and a click
moved the selection to the iframe `9`; the objects `0, 1, 2` belong to the first
selection and `3, 4, 5` to the second.  A direct `show` of the iframe `9` while `7` is
selected destroys `0, 1, 2` before it creates `3, 4, 5`. -/
theorem module_lifecycle_witness :
    Reachable demoFresh demoSwitched ∧
    demoSwitched.modules.map ModuleInst.id = [3, 4, 5] ∧
    demoSwitched.log.count (Event.onCreate 0) = 1 ∧
    demoSwitched.log.count (Event.onDestroy 0) = 1 ∧
    demoSwitched.log.count (Event.onDestroy 3) = 0 ∧
    DestroyAfterCreate demoSwitched.log ∧
    (showTarget demoWorld 9 demoSelected).log =
      demoSelected.log ++
        [Event.setSelectionNull, Event.onDestroy 0, Event.onDestroy 1, Event.onDestroy 2,
         Event.construct 3 ModuleClass.DisplaySize, Event.construct 4 ModuleClass.Toolbar,
         Event.construct 5 ModuleClass.Resize, Event.onCreate 3, Event.onCreate 4,
         Event.onCreate 5, Event.onUpdate 3, Event.onUpdate 4, Event.onUpdate 5] := by
  have hr0 : Reachable demoFresh demoSelected :=
    Reachable.step Reachable.init (Step.showTarget demoWorld 7 _)
  have hr : Reachable demoFresh demoSwitched :=
    Reachable.step hr0 (Step.handleClick demoWorld ⟨Node.root, 200, 400⟩ _)
  obtain ⟨_, _, h3, _, h5, h6, h7, _, _, _⟩ :=
    module_lifecycle demoHost ⟨none, []⟩ demoDefaults demoSwitched hr
  have hshow :=
    ((module_lifecycle demoHost ⟨none, []⟩ demoDefaults demoSelected hr0).2.2.2.2.2.2.2.2.2
      demoWorld 9).2.2
  refine ⟨hr, by decide, h3 0 (by decide), h6 0 (by decide) (by decide),
    h7 ⟨3, ModuleClass.DisplaySize⟩ (by decide), h5, ?_⟩
  rw [hshow]
  decide

end VideoResize
